import Mathlib

/-!
Verification development for the n8n Vercel-AI-SDK provider nodes
(DeepSeek, Groq, Google Generative AI, Vercel AI).

The per-item pipelines of the nodes are shallowly embedded below:
strings are `List Char` (or `String`), JavaScript objects become
structures with `Option` fields for possibly-`undefined` members, thrown
`NodeOperationError`s become `Except String` (the carried string being
the human-readable message from the source), and the single remote
generation call per item is modelled by an oracle function supplied as a
parameter, together with an explicit trace of the calls that were issued.
-/

namespace S2P

/-! ## Generic list machinery: first-occurrence substring search

`splitFirst pat s` models the leftmost-match behaviour of JavaScript's
`String.prototype.match`/`replace` with a pattern that begins with the
literal `pat`: it returns `some (pre, post)` where `s = pre ++ pat ++ post`
and `pre` is the shortest such prefix, or `none` when `pat` does not occur
in `s`. -/

def splitFirst (pat : List Char) : List Char → Option (List Char × List Char)
  | [] => if pat.isPrefixOf ([] : List Char) then some ([], []) else none
  | c :: cs =>
    if pat.isPrefixOf (c :: cs) then some ([], (c :: cs).drop pat.length)
    else (splitFirst pat cs).map fun pq => (c :: pq.1, pq.2)

/-- `pat` occurs somewhere in `s` (the model of JS `String.includes`). -/
def containsSub (pat s : List Char) : Bool := (splitFirst pat s).isSome

theorem splitFirst_sound (pat : List Char) :
    ∀ (s pre post : List Char), splitFirst pat s = some (pre, post) →
      s = pre ++ pat ++ post := by
  intro s
  induction s with
  | nil =>
    intro pre post h
    by_cases hp : pat.isPrefixOf ([] : List Char)
    · rw [splitFirst, if_pos hp] at h
      have hpat : pat = [] := List.prefix_nil.mp (List.isPrefixOf_iff_prefix.mp hp)
      obtain ⟨h1, h2⟩ := Prod.mk.injEq _ _ _ _ ▸ Option.some.injEq _ _ ▸ h
      simp [← h1, ← h2, hpat]
    · rw [splitFirst, if_neg hp] at h
      exact absurd h (by simp)
  | cons c cs ih =>
    intro pre post h
    by_cases hp : pat.isPrefixOf (c :: cs)
    · rw [splitFirst, if_pos hp] at h
      obtain ⟨h1, h2⟩ := Prod.mk.injEq _ _ _ _ ▸ Option.some.injEq _ _ ▸ h
      obtain ⟨t, ht⟩ := List.isPrefixOf_iff_prefix.mp hp
      have hdrop : (c :: cs).drop pat.length = t := by
        rw [← ht, List.drop_left]
      rw [← h1, ← h2, hdrop]
      simpa using ht.symm
    · rw [splitFirst, if_neg hp] at h
      obtain ⟨⟨p, q⟩, hpq, hext⟩ := Option.map_eq_some'.mp h
      obtain ⟨h1, h2⟩ := Prod.mk.injEq _ _ _ _ ▸ hext
      have hrec := ih p q hpq
      rw [← h1, ← h2]
      simp [hrec]

theorem splitFirst_leftmost (pat : List Char) :
    ∀ (s pre post : List Char), splitFirst pat s = some (pre, post) →
      ∀ pre' post', s = pre' ++ pat ++ post' → pre.length ≤ pre'.length := by
  intro s
  induction s with
  | nil =>
    intro pre post h pre' post' _
    by_cases hp : pat.isPrefixOf ([] : List Char)
    · rw [splitFirst, if_pos hp] at h
      obtain ⟨h1, _⟩ := Prod.mk.injEq _ _ _ _ ▸ Option.some.injEq _ _ ▸ h
      simp [← h1]
    · rw [splitFirst, if_neg hp] at h
      exact absurd h (by simp)
  | cons c cs ih =>
    intro pre post h pre' post' hdec
    by_cases hp : pat.isPrefixOf (c :: cs)
    · rw [splitFirst, if_pos hp] at h
      obtain ⟨h1, _⟩ := Prod.mk.injEq _ _ _ _ ▸ Option.some.injEq _ _ ▸ h
      simp [← h1]
    · rw [splitFirst, if_neg hp] at h
      obtain ⟨⟨p, q⟩, hpq, hext⟩ := Option.map_eq_some'.mp h
      obtain ⟨h1, h2⟩ := Prod.mk.injEq _ _ _ _ ▸ hext
      cases pre' with
      | nil =>
        exfalso
        apply hp
        apply List.isPrefixOf_iff_prefix.mpr
        have : pat ++ post' = c :: cs := by simpa using hdec.symm
        exact this ▸ List.prefix_append pat post'
      | cons c' pre'' =>
        have htail : cs = pre'' ++ pat ++ post' := by
          have := congrArg List.tail hdec
          simpa using this
        have hrec := ih p q hpq pre'' post' htail
        rw [← h1]
        simpa using Nat.succ_le_succ hrec

theorem splitFirst_complete (pat : List Char) :
    ∀ (s pre post : List Char), s = pre ++ pat ++ post →
      (splitFirst pat s).isSome := by
  intro s
  induction s with
  | nil =>
    intro pre post hdec
    have hpre : pre = [] := by
      cases pre with
      | nil => rfl
      | cons a as => simp at hdec
    have hpat : pat = [] := by
      subst hpre
      cases pat with
      | nil => rfl
      | cons a as => simp at hdec
    simp [splitFirst, hpat, List.isPrefixOf]
  | cons c cs ih =>
    intro pre post hdec
    by_cases hp : pat.isPrefixOf (c :: cs)
    · simp [splitFirst, hp]
    · cases pre with
      | nil =>
        exfalso
        apply hp
        apply List.isPrefixOf_iff_prefix.mpr
        have : pat ++ post = c :: cs := by simpa using hdec.symm
        exact this ▸ List.prefix_append pat post
      | cons c' pre'' =>
        have htail : cs = pre'' ++ pat ++ post := by
          have := congrArg List.tail hdec
          simpa using this
        have hrec := ih pre'' post htail
        rw [splitFirst, if_neg hp]
        simpa using hrec

/-- When a decomposition with a minimal-length prefix is supplied,
`splitFirst` returns exactly it. -/
theorem splitFirst_eq_of_minimal (pat s pre post : List Char)
    (hdec : s = pre ++ pat ++ post)
    (hmin : ∀ pre' post', s = pre' ++ pat ++ post' → pre.length ≤ pre'.length) :
    splitFirst pat s = some (pre, post) := by
  have hsome := splitFirst_complete pat s pre post hdec
  obtain ⟨⟨p, q⟩, hpq⟩ := Option.isSome_iff_exists.mp hsome
  have hdec' := splitFirst_sound pat s p q hpq
  have h1 : p.length ≤ pre.length := splitFirst_leftmost pat s p q hpq pre post hdec
  have h2 : pre.length ≤ p.length := hmin p q hdec'
  have hlen : p.length = pre.length := Nat.le_antisymm h1 h2
  have hpfx1 : p <+: s := ⟨pat ++ q, by simpa using hdec'.symm⟩
  have hpfx2 : pre <+: s := ⟨pat ++ post, by simpa using hdec.symm⟩
  have hpp : p = pre := by
    rcases List.prefix_or_prefix_of_prefix hpfx1 hpfx2 with h | h
    · exact List.IsPrefix.eq_of_length h hlen
    · exact (List.IsPrefix.eq_of_length h hlen.symm).symm
  subst hpp
  have hq : q = post := by
    have heq : p ++ pat ++ q = p ++ pat ++ post := hdec' ▸ hdec
    exact List.append_cancel_left heq
  rw [hpq, hq]

theorem splitFirst_none_iff (pat s : List Char) :
    splitFirst pat s = none ↔ ∀ pre post, s ≠ pre ++ pat ++ post := by
  constructor
  · intro hnone pre post hdec
    have := splitFirst_complete pat s pre post hdec
    rw [hnone] at this
    simp at this
  · intro h
    cases hs : splitFirst pat s with
    | none => rfl
    | some pq =>
      exfalso
      exact h pq.1 pq.2 (splitFirst_sound pat s pq.1 pq.2 hs)

end S2P

namespace S2P

/-! ## JSON values, parsing and printing

The nodes receive the "Messages (JSON)" parameter as a raw string and run
it through `JSON.parse`.  We model JSON values with `Json` and
`JSON.parse` with a small fuel-based recursive-descent parser
(`parseJson`).  Restrictions of the model, irrelevant to every claim:
numbers are integers (no fraction/exponent) and `\uXXXX` escapes are not
recognised. -/

inductive Json where
  | null : Json
  | bool (b : Bool) : Json
  | num (n : Int) : Json
  | str (s : List Char) : Json
  | arr (xs : List Json) : Json
  | obj (fields : List (List Char × Json)) : Json

/-- JS object property access `o[k]`: with duplicate keys the later
property wins, as in a JS object literal / `JSON.parse`. -/
def jlookup (k : List Char) (fields : List (List Char × Json)) : Option Json :=
  fields.foldl (fun acc kv => if kv.1 = k then some kv.2 else acc) none

def lbrace : Char := Char.ofNat 123

def rbrace : Char := Char.ofNat 125

def jsonWs (c : Char) : Bool := c = ' ' || c = '\t' || c = '\n' || c = '\r'

def skipWs (s : List Char) : List Char := s.dropWhile jsonWs

/-- Parse a JSON string body (after the opening quote); returns the
decoded characters and the input remaining after the closing quote. -/
def parseStringBody : List Char → Option (List Char × List Char)
  | [] => none
  | '\\' :: e :: rest =>
    let dec : Option Char :=
      if e = '"' then some '"'
      else if e = '\\' then some '\\'
      else if e = '/' then some '/'
      else if e = 'n' then some '\n'
      else if e = 't' then some '\t'
      else if e = 'r' then some '\r'
      else if e = 'b' then some (Char.ofNat 8)
      else if e = 'f' then some (Char.ofNat 12)
      else none
    match dec with
    | none => none
    | some d => (parseStringBody rest).map fun cr => (d :: cr.1, cr.2)
  | c :: rest =>
    if c = '"' then some ([], rest)
    else (parseStringBody rest).map fun cr => (c :: cr.1, cr.2)

def digitVal (c : Char) : Int := Int.ofNat (c.toNat - 48)

def parseNumber (s : List Char) : Option (Json × List Char) :=
  let (neg, s') := if s.head? = some '-' then (true, s.tail) else (false, s)
  let ds := s'.takeWhile Char.isDigit
  let rest := s'.dropWhile Char.isDigit
  if ds.isEmpty then none
  else
    let v : Int := ds.foldl (fun acc c => acc * 10 + digitVal c) 0
    some (.num (if neg then -v else v), rest)

mutual

def parseValue : Nat → List Char → Option (Json × List Char)
  | 0, _ => none
  | Nat.succ n, s =>
    let s := skipWs s
    match s with
    | [] => none
    | c :: rest =>
      if c = '"' then (parseStringBody rest).map fun cr => (.str cr.1, cr.2)
      else if c = lbrace then (parseMembers n rest).map fun mr => (.obj mr.1, mr.2)
      else if c = '[' then (parseItems n rest).map fun ir => (.arr ir.1, ir.2)
      else if "true".data.isPrefixOf s then some (.bool true, s.drop 4)
      else if "false".data.isPrefixOf s then some (.bool false, s.drop 5)
      else if "null".data.isPrefixOf s then some (.null, s.drop 4)
      else parseNumber s

def parseItems : Nat → List Char → Option (List Json × List Char)
  | 0, _ => none
  | Nat.succ n, s =>
    match skipWs s with
    | [] => none
    | c :: rest =>
      if c = ']' then some ([], rest)
      else
        match parseValue n (c :: rest) with
        | none => none
        | some (v, r) =>
          match skipWs r with
          | [] => none
          | c2 :: r2 =>
            if c2 = ',' then
              match parseItems n r2 with
              | none => none
              | some (vs, r3) => some (v :: vs, r3)
            else if c2 = ']' then some ([v], r2)
            else none

def parseMembers : Nat → List Char → Option (List (List Char × Json) × List Char)
  | 0, _ => none
  | Nat.succ n, s =>
    match skipWs s with
    | [] => none
    | c :: rest =>
      if c = rbrace then some ([], rest)
      else if c = '"' then
        match parseStringBody rest with
        | none => none
        | some (k, r1) =>
          match skipWs r1 with
          | [] => none
          | c2 :: r2 =>
            if c2 = ':' then
              match parseValue n r2 with
              | none => none
              | some (v, r3) =>
                match skipWs r3 with
                | [] => none
                | c3 :: r4 =>
                  if c3 = ',' then
                    match parseMembers n r4 with
                    | none => none
                    | some (ms, r5) => some ((k, v) :: ms, r5)
                  else if c3 = rbrace then some ([(k, v)], r4)
                  else none
            else none
      else none

end

/-- Model of `JSON.parse`: parse one value and require the remaining
input to be whitespace only. -/
def parseJson (s : List Char) : Option Json :=
  match parseValue (s.length + 1) s with
  | none => none
  | some (v, r) => if skipWs r = [] then some v else none

/-- JSON string escaping as performed by `JSON.stringify`
(restricted to the escapes the model's strings can contain). -/
def escapeChars : List Char → List Char
  | [] => []
  | c :: cs =>
    (if c = '"' then ['\\', '"']
     else if c = '\\' then ['\\', '\\']
     else if c = '\n' then ['\\', 'n']
     else if c = '\t' then ['\\', 't']
     else if c = '\r' then ['\\', 'r']
     else [c]) ++ escapeChars cs

mutual

/-- Model of `JSON.stringify` (compact form, as produced by JS with no
spacing argument). -/
def printJson : Json → List Char
  | .null => "null".data
  | .bool true => "true".data
  | .bool false => "false".data
  | .num n => (if n < 0 then ['-'] else []) ++ Nat.toDigits 10 n.natAbs
  | .str s => '"' :: escapeChars s ++ ['"']
  | .arr xs => '[' :: printItems xs ++ [']']
  | .obj fields => lbrace :: printFields fields ++ [rbrace]

def printItems : List Json → List Char
  | [] => []
  | [x] => printJson x
  | x :: y :: rest => printJson x ++ [','] ++ printItems (y :: rest)

def printFields : List (List Char × Json) → List Char
  | [] => []
  | [kv] => '"' :: escapeChars kv.1 ++ ['"', ':'] ++ printJson kv.2
  | kv :: kv2 :: rest =>
    '"' :: escapeChars kv.1 ++ ['"', ':'] ++ printJson kv.2 ++ [','] ++
      printFields (kv2 :: rest)

end

end S2P

namespace S2P

/-! ## Shared shapes of the DeepSeek / Groq pipelines

Embedded from `src/nodes/DeepSeek/DeepSeek.node.ts` and the Groq node
(`src/unnamed/part_000`).  JavaScript strings are `List Char`; a JS
`number` option is modelled as `Int` (the claims only involve integral
values); `boolean | undefined` is `Option Bool` with JS truthiness
`(· = some true)`. -/

/-- A chat message as built by the DeepSeek/Groq `buildInput`
(the `AiSdkMessage` fields the code constructs: `role` and `content`). -/
structure Msg where
  role : List Char
  content : List Char
  deriving Repr, DecidableEq

/-- One row of the "Messages" fixedCollection UI
(`messages.messagesUi`). -/
structure UiRow where
  role : List Char
  systemContent : Option (List Char)
  content : Option (List Char)

/-- The raw per-item parameter values `buildInput` reads through
`exec.getNodeParameter`. -/
structure BuildParams where
  inputType : List Char
  prompt : List Char
  system : List Char
  messageAsJson : Bool
  messagesJson : List Char
  messagesUi : List UiRow

/-- The value `buildInput` resolves to:
`{ prompt?: string; system?: string; messages?: AiSdkMessage[] }`. -/
structure BuiltInput where
  prompt : Option (List Char)
  system : Option (List Char)
  messages : Option (List Msg)

/-- The element check of the zod schema used by the DeepSeek and Groq
JSON branches:
`z.object({ role: z.enum(['system','user','assistant']), content: z.string() })`.
Unknown keys are stripped (zod default); a missing or wrongly typed
`role`/`content` fails. -/
def dsZodElem (j : Json) : Option Msg :=
  match j with
  | .obj fields =>
    match jlookup "role".data fields, jlookup "content".data fields with
    | some (.str r), some (.str c) =>
      if r = "system".data || r = "user".data || r = "assistant".data then
        some ⟨r, c⟩
      else none
    | _, _ => none
  | _ => none

/-- Element-wise validation of a zod array schema: succeeds only when
every element passes the element schema. -/
def zodTraverse {α : Type} (f : Json → Option α) : List Json → Option (List α)
  | [] => some []
  | x :: xs =>
    match f x, zodTraverse f xs with
    | some y, some ys => some (y :: ys)
    | _, _ => none

/-- `z.array(...).safeParse(arr)`: succeeds only on an array whose every
element passes the element schema. -/
def dsZodMessages (j : Json) : Option (List Msg) :=
  match j with
  | .arr xs => zodTraverse dsZodElem xs
  | _ => none

/-- DeepSeek: message thrown when `JSON.parse` fails (the model omits
the appended JS `SyntaxError` text). -/
def dsMalformedMsg : List Char := "Invalid JSON in \"Messages (JSON)\" field".data

/-- DeepSeek: message of the shape-validation (`InvalidShape`) error. -/
def dsInvalidShapeMsg : List Char :=
  "Messages must be an array of objects with role and content.".data

/-- `buildInput` of the DeepSeek node (DeepSeek.node.ts, lines 29-99). -/
def dsBuildInput (p : BuildParams) : Except (List Char) BuiltInput :=
  if p.inputType = "prompt".data then
    .ok { prompt := some p.prompt, system := some p.system, messages := none }
  else if p.messageAsJson then
    match parseJson p.messagesJson with
    | none => .error dsMalformedMsg
    | some j =>
      match dsZodMessages j with
      | none => .error dsInvalidShapeMsg
      | some msgs => .ok { prompt := none, system := none, messages := some msgs }
  else
    .ok { prompt := none, system := none,
          messages := some (p.messagesUi.map fun row =>
            { role := row.role
              content := if row.role = "system".data then row.systemContent.getD []
                         else row.content.getD [] }) }

/-- Groq: message of the shape-validation error (the only textual
difference from the DeepSeek `buildInput`). -/
def groqInvalidShapeMsg : List Char :=
  "Messages must be an array of objects with \x7b role, content \x7d.".data

/-- `buildInput` of the Groq node (src/unnamed/part_000, lines 32-102);
identical to the DeepSeek one except for the shape-error message. -/
def groqBuildInput (p : BuildParams) : Except (List Char) BuiltInput :=
  if p.inputType = "prompt".data then
    .ok { prompt := some p.prompt, system := some p.system, messages := none }
  else if p.messageAsJson then
    match parseJson p.messagesJson with
    | none => .error dsMalformedMsg
    | some j =>
      match dsZodMessages j with
      | none => .error groqInvalidShapeMsg
      | some msgs => .ok { prompt := none, system := none, messages := some msgs }
  else
    .ok { prompt := none, system := none,
          messages := some (p.messagesUi.map fun row =>
            { role := row.role
              content := if row.role = "system".data then row.systemContent.getD []
                         else row.content.getD [] }) }

end S2P

namespace S2P

/-- `GenerateTextResult` — the fields of the SDK result that the
DeepSeek `formatTextResult` reads. -/
structure TextResult where
  text : List Char
  finishReason : List Char
  usagePromptTokens : Option Int
  usageCompletionTokens : Option Int
  usageTotalTokens : Option Int
  respId : Option (List Char)
  respModelId : Option (List Char)
  respTimestamp : Option (List Char)
  respHeaders : Option (List (List Char × List Char))
  warnings : Option (List (List Char))
  requestBody : Option (List Char)

/-- `GenerateObjectResult` — the fields the `formatObjectResult`
helpers read. -/
structure ObjResult where
  object : Json
  finishReason : List Char
  usagePromptTokens : Option Int
  usageCompletionTokens : Option Int
  usageTotalTokens : Option Int
  respId : Option (List Char)
  respModelId : Option (List Char)
  respTimestamp : Option (List Char)
  respHeaders : Option (List (List Char × List Char))
  warnings : Option (List (List Char))
  requestBody : Option (List Char)

/-- The flat record `formatTextResult` builds for n8n (DeepSeek). -/
structure DsTextOut where
  text : List Char
  finishReason : List Char
  usagePromptTokens : Option Int
  usageCompletionTokens : Option Int
  usageTotalTokens : Option Int
  respId : Option (List Char)
  respModelId : Option (List Char)
  respTimestamp : Option (List Char)
  respHeaders : Option (List (List Char × List Char))
  warnings : List (List Char)
  request : Option (List Char)

/-- The flat record `formatObjectResult` builds for n8n (DeepSeek). -/
structure DsObjOut where
  object : Json
  finishReason : List Char
  usagePromptTokens : Option Int
  usageCompletionTokens : Option Int
  usageTotalTokens : Option Int
  respId : Option (List Char)
  respModelId : Option (List Char)
  respTimestamp : Option (List Char)
  respHeaders : Option (List (List Char × List Char))
  warnings : List (List Char)
  request : Option (List Char)

/-- `formatTextResult` of the DeepSeek node (lines 104-130).
`includeRequestBody` is `boolean | undefined`; JS truthiness means the
request body is attached exactly when it is `some true`. -/
def dsFormatTextResult (r : TextResult) (includeRequestBody : Option Bool) :
    DsTextOut :=
  { text := r.text
    finishReason := r.finishReason
    usagePromptTokens := r.usagePromptTokens
    usageCompletionTokens := r.usageCompletionTokens
    usageTotalTokens := r.usageTotalTokens
    respId := r.respId
    respModelId := r.respModelId
    respTimestamp := r.respTimestamp
    respHeaders := r.respHeaders
    warnings := r.warnings.getD []
    request := if includeRequestBody = some true then some (r.requestBody.getD []) else none }

/-- `formatObjectResult` of the DeepSeek node (lines 132-158). -/
def dsFormatObjectResult (r : ObjResult) (includeRequestBody : Option Bool) :
    DsObjOut :=
  { object := r.object
    finishReason := r.finishReason
    usagePromptTokens := r.usagePromptTokens
    usageCompletionTokens := r.usageCompletionTokens
    usageTotalTokens := r.usageTotalTokens
    respId := r.respId
    respModelId := r.respModelId
    respTimestamp := r.respTimestamp
    respHeaders := r.respHeaders
    warnings := r.warnings.getD []
    request := if includeRequestBody = some true then some (r.requestBody.getD []) else none }

/-- The `options` collection parameter (`maxTokens`, `temperature`,
`includeRequestBody`), every member optional. -/
structure GenOptions where
  maxTokens : Option Int
  temperature : Option Int
  includeRequestBody : Option Bool

/-- The argument object passed to the SDK's `generateText`, with the
API key that `createDeepSeek`/`createGroq` bound into the provider. -/
structure GenTextCall where
  apiKey : List Char
  model : List Char
  messages : Option (List Msg)
  maxTokens : Option Int
  temperature : Option Int
  prompt : Option (List Char)
  system : Option (List Char)

/-- The argument object passed to the SDK's `generateObject`. -/
structure GenObjCall where
  apiKey : List Char
  model : List Char
  schema : Json
  schemaName : List Char
  schemaDescription : List Char
  prompt : Option (List Char)
  system : Option (List Char)
  messages : Option (List Msg)
  maxTokens : Option Int
  temperature : Option Int

/-- One outbound remote call issued by the pipeline. -/
inductive IssuedCall where
  | text (call : GenTextCall)
  | obj (call : GenObjCall)

/-- All per-item parameter values the DeepSeek `execute` reads. -/
structure DsItemParams where
  model : List Char
  operation : List Char
  options : GenOptions
  input : BuildParams
  schemaName : List Char
  schemaDescription : List Char
  schemaRaw : List Char

/-- One record pushed onto `returnData` (`{json: ...}`). -/
inductive DsRec where
  | textRec (o : DsTextOut)
  | objRec (o : DsObjOut)
  | errorRec (message : List Char)

def dsSchemaNotJsonMsg : List Char := "Schema is not valid JSON".data

def dsInvalidSchemaMsg : List Char := "Invalid JSON Schema".data

/-- The body of the DeepSeek per-item `try` block (lines 534-608).
`genText`/`genObj` are the remote SDK operations (oracles); `ajv` is the
external Ajv `validateSchema` check.  Returns the trace of remote calls
the item issued together with the item's outcome; `.ok none` is the
silent fall-through when neither operation branch applies. -/
def dsProcessItem (apiKey : List Char)
    (genText : GenTextCall → Except (List Char) TextResult)
    (genObj : GenObjCall → Except (List Char) ObjResult)
    (ajv : Json → Bool) (p : DsItemParams) :
    List IssuedCall × Except (List Char) (Option DsRec) :=
  match dsBuildInput p.input with
  | .error e => ([], .error e)
  | .ok input =>
    if p.operation = "generateText".data then
      let call : GenTextCall :=
        { apiKey := apiKey, model := p.model, messages := input.messages
          maxTokens := p.options.maxTokens, temperature := p.options.temperature
          prompt := input.prompt, system := input.system }
      ([.text call],
       match genText call with
       | .error e => .error e
       | .ok r => .ok (some (.textRec (dsFormatTextResult r p.options.includeRequestBody))))
    else if p.operation = "generateObject".data && p.model = "deepseek-chat".data then
      match parseJson p.schemaRaw with
      | none => ([], .error dsSchemaNotJsonMsg)
      | some schema =>
        if ajv schema then
          let call : GenObjCall :=
            { apiKey := apiKey, model := p.model, schema := schema
              schemaName := p.schemaName, schemaDescription := p.schemaDescription
              prompt := input.prompt, system := input.system
              messages := input.messages
              maxTokens := p.options.maxTokens, temperature := p.options.temperature }
          ([.obj call],
           match genObj call with
           | .error e => .error e
           | .ok r => .ok (some (.objRec (dsFormatObjectResult r p.options.includeRequestBody))))
        else ([], .error dsInvalidSchemaMsg)
    else ([], .ok none)

/-- The error a non-continuing run aborts with
(`NodeOperationError` with `{itemIndex: i}`). -/
structure RunError where
  message : List Char
  itemIndex : Option Nat

def dsNoKeyMsg : List Char := "No API key provided in credentials".data

/-- The DeepSeek item loop (step 3 of `execute`): per item, run the
pipeline under `try`; in the `catch`, with `continueOnFail()` push an
`{error}` record and go on, otherwise rethrow with the item's index. -/
def dsLoop (apiKey : List Char)
    (cof : Bool)
    (genText : GenTextCall → Except (List Char) TextResult)
    (genObj : GenObjCall → Except (List Char) ObjResult)
    (ajv : Json → Bool) :
    List DsItemParams → Nat → List IssuedCall × Except RunError (List DsRec)
  | [], _ => ([], .ok [])
  | p :: ps, i =>
    let step := dsProcessItem apiKey genText genObj ajv p
    match step.2 with
    | .ok none =>
      let rest := dsLoop apiKey cof genText genObj ajv ps (i + 1)
      (step.1 ++ rest.1, rest.2)
    | .ok (some r0) =>
      let rest := dsLoop apiKey cof genText genObj ajv ps (i + 1)
      (step.1 ++ rest.1, rest.2.map (r0 :: ·))
    | .error e =>
      if cof then
        let rest := dsLoop apiKey cof genText genObj ajv ps (i + 1)
        (step.1 ++ rest.1, rest.2.map (DsRec.errorRec e :: ·))
      else (step.1, .error ⟨e, some i⟩)

/-- `DeepSeek.execute` (lines 517-620): the credential check
(`!credentials?.apiKey` — absent or empty string is falsy) followed by
the item loop.  Returns the full trace of issued remote calls and either
the output records or the aborting error. -/
def dsExecute (apiKey : Option (List Char)) (cof : Bool)
    (genText : GenTextCall → Except (List Char) TextResult)
    (genObj : GenObjCall → Except (List Char) ObjResult)
    (ajv : Json → Bool) (items : List DsItemParams) :
    List IssuedCall × Except RunError (List DsRec) :=
  if apiKey.getD [] = [] then ([], .error ⟨dsNoKeyMsg, none⟩)
  else dsLoop (apiKey.getD []) cof genText genObj ajv items 0

end S2P

namespace S2P

/-! ## Groq output normalizer (src/unnamed/part_000, lines 107-153) -/

def thinkOpen : List Char := "<think>".data

def thinkClose : List Char := "</think>".data

/-- The ASCII part of JS regex `\s` / `String.prototype.trim`
whitespace (space, tab, newline, carriage return, vertical tab, form
feed).  The non-ASCII members (NBSP etc.) are not modelled; no claim
involves them. -/
def jsWs (c : Char) : Bool :=
  c = ' ' || c = '\t' || c = '\n' || c = '\r' || c = Char.ofNat 11 || c = Char.ofNat 12

/-- JS `String.prototype.trim`. -/
def jsTrim (s : List Char) : List Char :=
  ((s.dropWhile jsWs).reverse.dropWhile jsWs).reverse

/-- The Groq `GenerateTextResult` fields `formatTextResult` reads:
like the DeepSeek one plus `reasoning` and the Groq provider-metadata
cache counters. -/
structure GroqTextResult where
  text : List Char
  reasoning : Option (List Char)
  finishReason : List Char
  usagePromptTokens : Option Int
  usageCompletionTokens : Option Int
  usageTotalTokens : Option Int
  cacheHitTokens : Option Int
  cacheMissTokens : Option Int
  respId : Option (List Char)
  respModelId : Option (List Char)
  respTimestamp : Option (List Char)
  respHeaders : Option (List (List Char × List Char))
  warnings : Option (List (List Char))
  requestBody : Option (List Char)

/-- The flat record the Groq `formatTextResult` builds. -/
structure GroqTextOut where
  text : List Char
  reasoning : Option (List Char)
  finishReason : List Char
  usagePromptTokens : Option Int
  usageCompletionTokens : Option Int
  usageTotalTokens : Option Int
  cacheHitTokens : Option Int
  cacheMissTokens : Option Int
  respId : Option (List Char)
  respModelId : Option (List Char)
  respTimestamp : Option (List Char)
  respHeaders : Option (List (List Char × List Char))
  warnings : List (List Char)
  request : Option (List Char)

/-- The `<think>` extraction of the Groq `formatTextResult`
(lines 111-122):

    if (text.includes('<think>')) {
      const thinkMatch = text.match(/<think>(.*?)<\/think>/s);
      if (thinkMatch) {
        reasoning = thinkMatch[1].trim();
        text = text.replace(/<think>.*?<\/think>\s*/s, '').trim();
      }
    }

The lazy leftmost regex match is the first `<think>` in the text
followed by the first `</think>` after it; both the `match` and the
`replace` pattern locate that same span, `replace` additionally
consuming the whitespace that follows it (`\s*`).  Returns the new
`(text, reasoning)` pair. -/
def groqThinkExtract (text : List Char) (reasoning : Option (List Char)) :
    List Char × Option (List Char) :=
  if containsSub thinkOpen text then
    match splitFirst thinkOpen text with
    | none => (text, reasoning)
    | some (pre, rest) =>
      match splitFirst thinkClose rest with
      | none => (text, reasoning)
      | some (inner, post) =>
        (jsTrim (pre ++ post.dropWhile jsWs), some (jsTrim inner))
  else (text, reasoning)

/-- `formatTextResult` of the Groq node (lines 107-153). -/
def groqFormatTextResult (r : GroqTextResult) (includeRequestBody : Option Bool) :
    GroqTextOut :=
  let tr := groqThinkExtract r.text r.reasoning
  { text := tr.1
    reasoning := tr.2
    finishReason := r.finishReason
    usagePromptTokens := r.usagePromptTokens
    usageCompletionTokens := r.usageCompletionTokens
    usageTotalTokens := r.usageTotalTokens
    cacheHitTokens := r.cacheHitTokens
    cacheMissTokens := r.cacheMissTokens
    respId := r.respId
    respModelId := r.respModelId
    respTimestamp := r.respTimestamp
    respHeaders := r.respHeaders
    warnings := r.warnings.getD []
    request := if includeRequestBody = some true then some (r.requestBody.getD []) else none }

end S2P

namespace S2P

/-! ## Gemini `buildInput` (src/unnamed/part_001, lines 438-583)

The `GoogleGenerativeAi` variant's input normalizer: like the
DeepSeek/Groq one, but the JSON branch accepts any `content`
(`z.any()`), and the UI branch supports multi-part file content. -/

/-- The data of a file part: a URL passed through for the provider to
fetch, or bytes decoded from a binary property (the base64 payload is
carried as-is; `Buffer.from(..., 'base64')` decoding is not modelled,
no claim inspects the bytes). -/
inductive GemFileData where
  | url (u : List Char)
  | buffer (bytes : List Char)

inductive GemPart where
  | text (t : List Char)
  | file (data : GemFileData) (mimeType : List Char)

/-- Message content: a plain string, a parts list (UI file branch), or
the untyped JSON value passed through by the `z.any()` JSON branch
(`none` when the element had no `content` key). -/
inductive GemContent where
  | str (s : List Char)
  | parts (ps : List GemPart)
  | raw (c : Option Json)

structure GemMsg where
  role : List Char
  content : GemContent

/-- A stored binary property of the current input item
(`items[itemIndex].binary[prop]`). -/
structure BinaryData where
  data : Option (List Char)
  mimeType : Option (List Char)

/-- One row of the Gemini "Messages" fixedCollection. -/
structure GemUiRow where
  role : List Char
  systemContent : Option (List Char)
  contentType : Option (List Char)
  fileDataSource : Option (List Char)
  fileContent : Option (List Char)
  fileUrl : Option (List Char)
  mimeType : Option (List Char)
  mimeTypeOther : Option (List Char)
  content : Option (List Char)

structure GemBuildParams where
  inputType : List Char
  prompt : List Char
  system : List Char
  messageAsJson : Bool
  messagesJson : List Char
  messagesUi : List GemUiRow
  itemBinary : Option (List (List Char × BinaryData))

structure GemBuiltInput where
  prompt : Option (List Char)
  system : Option (List Char)
  messages : Option (List GemMsg)

/-- Gemini zod element check:
`z.object({ role: z.enum(['system','user','assistant']), content: z.any() })`.
`z.any()` also accepts a missing `content` key. -/
def gemZodElem (j : Json) : Option GemMsg :=
  match j with
  | .obj fields =>
    match jlookup "role".data fields with
    | some (.str r) =>
      if r = "system".data || r = "user".data || r = "assistant".data then
        some ⟨r, .raw (jlookup "content".data fields)⟩
      else none
    | _ => none
  | _ => none

def gemZodMessages (j : Json) : Option (List GemMsg) :=
  match j with
  | .arr xs => zodTraverse gemZodElem xs
  | _ => none

def gemInvalidShapeMsg : List Char :=
  "Messages must be an array of objects with role and content.".data

def octetStream : List Char := "application/octet-stream".data

/-- Lines 536-539: `let selectedMimeType = msg.mimeType || 'application/octet-stream';
if (selectedMimeType === 'other' && msg.mimeTypeOther) selectedMimeType = msg.mimeTypeOther;` -/
def gemSelectMime (mimeType mimeTypeOther : Option (List Char)) : List Char :=
  let selected := if mimeType.getD [] = [] then octetStream else mimeType.getD []
  if selected = "other".data && mimeTypeOther.getD [] ≠ [] then mimeTypeOther.getD []
  else selected

/-- Lines 561-563 (binary source only):
`if (selectedMimeType === 'application/octet-stream' && binaryData.mimeType)
selectedMimeType = binaryData.mimeType;` -/
def gemBinaryMime (selected : List Char) (declared : Option (List Char)) : List Char :=
  if selected = octetStream && declared.getD [] ≠ [] then declared.getD []
  else selected

def gemMissingBinaryMsg (prop : List Char) (itemIndex : Nat) : List Char :=
  "Binary property \"".data ++ prop ++ "\" not found on item index ".data ++
    Nat.toDigits 10 itemIndex

/-- The UI (fixedCollection) branch of the Gemini `buildInput`
(lines 489-581), one row at a time. -/
def gemRowToMsg (itemBinary : Option (List (List Char × BinaryData)))
    (itemIndex : Nat) (msg : GemUiRow) : Except (List Char) GemMsg :=
  if msg.role = "system".data then
    .ok ⟨msg.role, .str (msg.systemContent.getD [])⟩
  else if msg.contentType.getD [] = "text".data then
    .ok ⟨msg.role, .str (msg.content.getD [])⟩
  else
    let textParts : List GemPart :=
      if msg.content.getD [] ≠ [] then [.text (msg.content.getD [])] else []
    let selectedMimeType := gemSelectMime msg.mimeType msg.mimeTypeOther
    if msg.fileDataSource.getD [] = "url".data then
      .ok ⟨msg.role, .parts (textParts ++ [.file (.url (msg.fileUrl.getD [])) selectedMimeType])⟩
    else
      let binaryProperty := if msg.fileContent.getD [] = [] then "data".data
                            else msg.fileContent.getD []
      match itemBinary with
      | none => .error (gemMissingBinaryMsg binaryProperty itemIndex)
      | some props =>
        match props.foldl (fun acc kv => if kv.1 = binaryProperty then some kv.2 else acc) none with
        | none => .error (gemMissingBinaryMsg binaryProperty itemIndex)
        | some binaryData =>
          let buffer := binaryData.data.getD []
          let finalMime := gemBinaryMime selectedMimeType binaryData.mimeType
          .ok ⟨msg.role, .parts (textParts ++ [.file (.buffer buffer) finalMime])⟩

/-- `buildInput` of the `GoogleGenerativeAi` variant
(src/unnamed/part_001, lines 438-583). -/
def gemBuildInput (itemIndex : Nat) (p : GemBuildParams) :
    Except (List Char) GemBuiltInput :=
  if p.inputType = "prompt".data then
    .ok { prompt := some p.prompt, system := some p.system, messages := none }
  else if p.messageAsJson then
    match parseJson p.messagesJson with
    | none => .error dsMalformedMsg
    | some j =>
      match gemZodMessages j with
      | none => .error gemInvalidShapeMsg
      | some msgs => .ok { prompt := none, system := none, messages := some msgs }
  else
    match p.messagesUi.mapM (gemRowToMsg p.itemBinary itemIndex) with
    | .error e => .error e
    | .ok msgs => .ok { prompt := none, system := none, messages := some msgs }

end S2P

namespace S2P

/-! ## GoogleGenerativeAI node (src/nodes/GoogleGenerativeAI/GoogleGenerativeAI.node.ts)

Only the pieces the claims touch: the `chat` operation's
`jsonParameters` message path (lines 560-566), which performs no shape
validation, and the `isImage` classification of the file branch
(lines 587-607). -/

/-- JS truthiness of a JSON value (`undefined`, `null`, `false`, `0`,
`''` are falsy). -/
def jsTruthy : Option Json → Bool
  | none => false
  | some .null => false
  | some (.bool b) => b
  | some (.num n) => !(n == 0)
  | some (.str s) => !s.isEmpty
  | some (.arr _) => true
  | some (.obj _) => true

/-- Marker for the generated id
``msg_${Date.now()}_${Math.random()...}`` (nondeterministic; opaque in
the model). -/
def ggGeneratedId : Json := .str "msg_generated".data

/-- The message produced by
`parsedMessages.map((msg: any) => ({...msg, id: msg.id || generated}))`:
the parsed element's fields are kept as-is (we track `role` and
`content`, the only ones later consumed), plus the `id`. -/
structure GgMsg where
  role : Option Json
  content : Option Json
  id : Json

/-- One mapped element.  A non-object element is spread to an object
with no `role`/`content` properties. -/
def ggMsgOfJson (j : Json) : GgMsg :=
  match j with
  | .obj fields =>
    { role := jlookup "role".data fields
      content := jlookup "content".data fields
      id := if jsTruthy (jlookup "id".data fields) then (jlookup "id".data fields).getD .null
            else ggGeneratedId }
  | _ => { role := none, content := none, id := ggGeneratedId }

/-- The `chat`/`jsonParameters` message path of `GoogleGenerativeAI.execute`
(lines 560-566): `JSON.parse` (whose `SyntaxError` propagates to the
item's catch) followed by a bare `.map` — no shape validation of any
kind.  A non-array parse result throws a `TypeError` at `.map`. -/
def ggChatJsonNormalize (raw : List Char) : Except (List Char) (List GgMsg) :=
  match parseJson raw with
  | none => .error "SyntaxError: unexpected token in JSON".data
  | some (.arr xs) => .ok (xs.map ggMsgOfJson)
  | some _ => .error "TypeError: parsedMessages.map is not a function".data

/-- The `isImage` decision of the file branch (lines 589-590):
`fileOptions.forceImageType || (!fileOptions.forceFileType &&
binaryData.mimeType.startsWith('image/'))`. -/
def ggIsImage (forceImageType forceFileType : Bool) (declaredMime : List Char) : Bool :=
  forceImageType || (!forceFileType && "image/".data.isPrefixOf declaredMime)

end S2P

namespace S2P

/-! ## VercelAI node (src/unnamed/part_000, lines 655-1021)

The streaming node.  Per item it constructs an OpenAI or Anthropic
provider from the corresponding credential — with no API-key check —
and calls the SDK's `streamText`, consuming `result.textStream` to
completion.  The remote stream is modelled by an oracle mapping the
call's argument object to the chunk list it yields (or a thrown
error). -/

/-- The `streamText` argument object, together with the provider's
bound API key. -/
structure VaCall where
  provider : List Char
  apiKey : List Char
  model : List Char
  messages : List Msg
  maxTokens : Option Int
  temperature : Option Int

/-- One `{json: ...}` output record of the VercelAI node: `text` and
`complete` are present or absent depending on the branch; `error` is
the continue-on-fail record's field. -/
structure VaRec where
  text : Option (List Char)
  complete : Option Bool
  error : Option (List Char)
  deriving Repr, DecidableEq

structure VaOptions where
  maxTokens : Option Int
  temperature : Option Int
  stream : Option Bool

structure VaUiRow where
  role : List Char
  content : List Char

structure VaItemParams where
  operation : List Char
  provider : List Char
  model : List Char
  prompt : List Char
  messagesUi : List VaUiRow
  options : VaOptions

/-- The chunk-consumption loop (lines 949-958 / 983-992):

    let text = '';
    for await (const chunk of result.textStream) {
      text += chunk;
      if (!options.stream) continue;
      returnData.push({ json: { text: chunk, complete: false } });
    }

Returns the accumulated text and the chunk records pushed. -/
def vaConsume (stream : Bool) : List (List Char) → List Char → List Char × List VaRec
  | [], acc => (acc, [])
  | c :: cs, acc =>
    let rest := vaConsume stream cs (acc ++ c)
    (rest.1, (if stream then [⟨some c, some false, none⟩] else []) ++ rest.2)

/-- The body of the VercelAI per-item `try` block (lines 911-1003).
Returns the issued calls and the records pushed for the item, or the
thrown error. -/
def vaProcessItem (openAiKey anthropicKey : List Char)
    (streamOracle : VaCall → Except (List Char) (List (List Char)))
    (p : VaItemParams) : List VaCall × Except (List Char) (List VaRec) :=
  let apiKey := if p.provider = "openai".data then openAiKey else anthropicKey
  let stream := p.options.stream = some true
  if p.operation = "complete".data then
    let messages : List Msg := [⟨"user".data, p.prompt⟩]
    let call : VaCall := { provider := p.provider, apiKey := apiKey, model := p.model
                           messages := messages, maxTokens := p.options.maxTokens
                           temperature := p.options.temperature }
    ([call],
     match streamOracle call with
     | .error e => .error e
     | .ok chunks =>
       let consumed := vaConsume stream chunks []
       let response : VaRec :=
         if stream then ⟨some consumed.1, some true, none⟩ else ⟨some consumed.1, none, none⟩
       .ok (consumed.2 ++ [response]))
  else if p.operation = "chat".data then
    let messages : List Msg := p.messagesUi.map fun m => ⟨m.role, m.content⟩
    let call : VaCall := { provider := p.provider, apiKey := apiKey, model := p.model
                           messages := messages, maxTokens := p.options.maxTokens
                           temperature := p.options.temperature }
    ([call],
     match streamOracle call with
     | .error e => .error e
     | .ok chunks =>
       let consumed := vaConsume stream chunks []
       let response : VaRec :=
         if stream then ⟨some consumed.1, some true, none⟩ else ⟨some consumed.1, none, none⟩
       .ok (consumed.2 ++ [response]))
  else
    ([], .ok [⟨none, none, none⟩])

/-- `VercelAI.execute` (lines 905-1020): the sequential item loop with
its catch block (`{error}` record under continue-on-fail, otherwise
abort carrying the item index). -/
def vaLoop (openAiKey anthropicKey : List Char) (cof : Bool)
    (streamOracle : VaCall → Except (List Char) (List (List Char))) :
    List VaItemParams → Nat → List VaCall × Except RunError (List VaRec)
  | [], _ => ([], .ok [])
  | p :: ps, i =>
    let step := vaProcessItem openAiKey anthropicKey streamOracle p
    match step.2 with
    | .ok recs =>
      let rest := vaLoop openAiKey anthropicKey cof streamOracle ps (i + 1)
      (step.1 ++ rest.1, rest.2.map (recs ++ ·))
    | .error e =>
      if cof then
        let rest := vaLoop openAiKey anthropicKey cof streamOracle ps (i + 1)
        (step.1 ++ rest.1, rest.2.map (VaRec.mk none none (some e) :: ·))
      else (step.1, .error ⟨e, some i⟩)

def vaExecute (openAiKey anthropicKey : List Char) (cof : Bool)
    (streamOracle : VaCall → Except (List Char) (List (List Char)))
    (items : List VaItemParams) : List VaCall × Except RunError (List VaRec) :=
  vaLoop openAiKey anthropicKey cof streamOracle items 0

end S2P

namespace S2P

/-! ## Claim theorems -/

/-- C9: Invariant of the input normalizer (`buildInput`) in the
DeepSeek, Groq, and Gemini nodes: every successfully returned value has
exactly one of the two shapes — either `prompt` and `system` are defined
and `messages` is undefined (prompt mode), or `messages` is defined and
`prompt` and `system` are undefined (messages mode); it never returns
both a prompt and a messages list. -/
theorem c9_buildInput_mode_exclusive :
    (∀ (p : BuildParams) (r : BuiltInput), dsBuildInput p = .ok r →
      (r.prompt.isSome ∧ r.system.isSome ∧ r.messages = none) ∨
      (r.messages.isSome ∧ r.prompt = none ∧ r.system = none)) ∧
    (∀ (p : BuildParams) (r : BuiltInput), groqBuildInput p = .ok r →
      (r.prompt.isSome ∧ r.system.isSome ∧ r.messages = none) ∨
      (r.messages.isSome ∧ r.prompt = none ∧ r.system = none)) ∧
    (∀ (i : Nat) (p : GemBuildParams) (r : GemBuiltInput), gemBuildInput i p = .ok r →
      (r.prompt.isSome ∧ r.system.isSome ∧ r.messages = none) ∨
      (r.messages.isSome ∧ r.prompt = none ∧ r.system = none)) := by
  refine ⟨?_, ?_, ?_⟩
  · intro p r h
    unfold dsBuildInput at h
    split at h
    · cases h
      left
      exact ⟨rfl, rfl, rfl⟩
    · split at h
      · split at h
        · exact absurd h (by simp)
        · split at h
          · exact absurd h (by simp)
          · cases h
            right
            exact ⟨rfl, rfl, rfl⟩
      · cases h
        right
        exact ⟨rfl, rfl, rfl⟩
  · intro p r h
    unfold groqBuildInput at h
    split at h
    · cases h
      left
      exact ⟨rfl, rfl, rfl⟩
    · split at h
      · split at h
        · exact absurd h (by simp)
        · split at h
          · exact absurd h (by simp)
          · cases h
            right
            exact ⟨rfl, rfl, rfl⟩
      · cases h
        right
        exact ⟨rfl, rfl, rfl⟩
  · intro i p r h
    unfold gemBuildInput at h
    split at h
    · cases h
      left
      exact ⟨rfl, rfl, rfl⟩
    · split at h
      · split at h
        · exact absurd h (by simp)
        · split at h
          · exact absurd h (by simp)
          · cases h
            right
            exact ⟨rfl, rfl, rfl⟩
      · split at h
        · exact absurd h (by simp)
        · cases h
          right
          exact ⟨rfl, rfl, rfl⟩

/-- Witness for C9 at a concrete prompt-mode input. -/
theorem c9_buildInput_mode_exclusive_witness :
    (({ prompt := some "hi".data, system := some "sys".data,
        messages := none } : BuiltInput).prompt.isSome ∧
     ({ prompt := some "hi".data, system := some "sys".data,
        messages := none } : BuiltInput).system.isSome ∧
     ({ prompt := some "hi".data, system := some "sys".data,
        messages := none } : BuiltInput).messages = none) ∨
    (({ prompt := some "hi".data, system := some "sys".data,
        messages := none } : BuiltInput).messages.isSome ∧
     ({ prompt := some "hi".data, system := some "sys".data,
        messages := none } : BuiltInput).prompt = none ∧
     ({ prompt := some "hi".data, system := some "sys".data,
        messages := none } : BuiltInput).system = none) :=
  c9_buildInput_mode_exclusive.1
    { inputType := "prompt".data, prompt := "hi".data, system := "sys".data,
      messageAsJson := false, messagesJson := [], messagesUi := [] } _ rfl

end S2P

namespace S2P

/-- The `JSON.stringify` image of a Message built by `buildInput`
(property order is insertion order: `role`, then `content`). -/
def msgToJson (m : Msg) : Json :=
  .obj [("role".data, .str m.role), ("content".data, .str m.content)]

/-- The structured list editor row of claim C8 (the DeepSeek messages
UI carries no `contentType` field; an extra field in the row is ignored
by `buildInput`). -/
def c8Row : UiRow :=
  { role := "user".data, systemContent := none, content := some "hi".data }

def c8Msg : Msg := { role := "user".data, content := "hi".data }

/-- C8: Round-trip between the two messages-mode input paths: the
structured row `{role:'user', content:'hi'}` normalizes to the Message
`{role:'user', content:'hi'}`, and feeding the JSON serialization of
that Message through the JSON-array input path and re-normalizing
yields an identical Message. -/
theorem c8_messages_round_trip :
    dsBuildInput
      { inputType := "messages".data, prompt := [], system := [],
        messageAsJson := false, messagesJson := [], messagesUi := [c8Row] } =
      .ok { prompt := none, system := none, messages := some [c8Msg] } ∧
    dsBuildInput
      { inputType := "messages".data, prompt := [], system := [],
        messageAsJson := true, messagesJson := printJson (.arr [msgToJson c8Msg]),
        messagesUi := [] } =
      .ok { prompt := none, system := none, messages := some [c8Msg] } :=
  ⟨rfl, rfl⟩

end S2P

namespace S2P

/-- Whether a parsed JSON element carries a `role` property that is one
of the three permitted role strings (the premise of claim C2 is its
negation). -/
def hasValidRole (j : Json) : Bool :=
  match j with
  | .obj fields =>
    match jlookup "role".data fields with
    | some (.str r) => r = "system".data || r = "user".data || r = "assistant".data
    | _ => false
  | _ => false

theorem dsZodElem_none_of_badRole (j : Json) (h : hasValidRole j = false) :
    dsZodElem j = none := by
  cases j with
  | obj fields =>
    simp only [hasValidRole] at h
    simp only [dsZodElem]
    cases hrole : jlookup "role".data fields with
    | none =>
      cases jlookup "content".data fields <;> simp
    | some jr =>
      cases jr with
      | str r =>
        cases hcont : jlookup "content".data fields with
        | none => simp
        | some jc => cases jc <;> simp_all
      | null => cases jlookup "content".data fields <;> simp
      | bool b => cases jlookup "content".data fields <;> simp
      | num n => cases jlookup "content".data fields <;> simp
      | arr xs => cases jlookup "content".data fields <;> simp
      | obj f2 => cases jlookup "content".data fields <;> simp
  | null => rfl
  | bool b => rfl
  | num n => rfl
  | str s => rfl
  | arr xs => rfl

theorem gemZodElem_none_of_badRole (j : Json) (h : hasValidRole j = false) :
    gemZodElem j = none := by
  cases j with
  | obj fields =>
    simp only [hasValidRole] at h
    simp only [gemZodElem]
    cases hrole : jlookup "role".data fields with
    | none => rfl
    | some jr => cases jr <;> simp_all
  | null => rfl
  | bool b => rfl
  | num n => rfl
  | str s => rfl
  | arr xs => rfl

theorem zodTraverse_none_of_mem {α : Type} (f : Json → Option α) :
    ∀ (xs : List Json) (j : Json), j ∈ xs → f j = none →
      zodTraverse f xs = none := by
  intro xs
  induction xs with
  | nil => intro j hj; simp at hj
  | cons x rest ih =>
    intro j hj hf
    rcases List.mem_cons.mp hj with heq | hmem
    · subst heq
      unfold zodTraverse
      rw [hf]
    · unfold zodTraverse
      rw [ih j hmem hf]
      cases f x <;> simp

end S2P

namespace S2P

/-- The JSON-array input of claim C2's counterexample: it parses, and
its single element's role `"foo"` is outside {system,user,assistant}. -/
def c2BadInput : List Char := "[\x7b\"role\":\"foo\",\"content\":\"x\"\x7d]".data

def c2BadElem : Json :=
  .obj [("role".data, .str "foo".data), ("content".data, .str "x".data)]

/-- C2 counterexample: the claim says the input normalizer of *every*
node fails with `InvalidShape` on a parsed JSON array containing a role
outside {system,user,assistant} and produces zero Messages.  The
GoogleGenerativeAI node's `chat`/`jsonParameters` path
(GoogleGenerativeAI.node.ts lines 560-566) does not: on that exact
input it succeeds and produces one Message whose role is `"foo"`,
which is then passed to the provider call. -/
theorem c2_counterexample :
    ggChatJsonNormalize c2BadInput =
      .ok [{ role := some (.str "foo".data), content := some (.str "x".data),
             id := ggGeneratedId }] := rfl

/-- C2 (amended): for every messages-mode JSON input that parses as an
array containing an element without a valid role, the DeepSeek, Groq
and Gemini (`buildInput`-based) normalizers fail with their
`InvalidShape` error and produce zero Messages; the GoogleGenerativeAI
chat node's JSON path instead performs no shape validation at all and
maps every parsed array element straight into a Message. -/
theorem c2_role_validation_amended :
    (∀ (p : BuildParams) (xs : List Json) (j : Json),
      p.inputType = "messages".data → p.messageAsJson = true →
      parseJson p.messagesJson = some (.arr xs) →
      j ∈ xs → hasValidRole j = false →
      dsBuildInput p = .error dsInvalidShapeMsg ∧
      groqBuildInput p = .error groqInvalidShapeMsg) ∧
    (∀ (i : Nat) (p : GemBuildParams) (xs : List Json) (j : Json),
      p.inputType = "messages".data → p.messageAsJson = true →
      parseJson p.messagesJson = some (.arr xs) →
      j ∈ xs → hasValidRole j = false →
      gemBuildInput i p = .error gemInvalidShapeMsg) ∧
    (∀ (raw : List Char) (xs : List Json), parseJson raw = some (.arr xs) →
      ggChatJsonNormalize raw = .ok (xs.map ggMsgOfJson)) := by
  refine ⟨?_, ?_, ?_⟩
  · intro p xs j hmode hjson hparse hmem hbad
    have htrav : zodTraverse dsZodElem xs = none :=
      zodTraverse_none_of_mem dsZodElem xs j hmem (dsZodElem_none_of_badRole j hbad)
    constructor
    · unfold dsBuildInput
      rw [if_neg (by rw [hmode]; decide), hjson]
      simp only [if_true]
      rw [hparse]
      simp only [dsZodMessages]
      rw [htrav]
    · unfold groqBuildInput
      rw [if_neg (by rw [hmode]; decide), hjson]
      simp only [if_true]
      rw [hparse]
      simp only [dsZodMessages]
      rw [htrav]
  · intro i p xs j hmode hjson hparse hmem hbad
    have htrav : zodTraverse gemZodElem xs = none :=
      zodTraverse_none_of_mem gemZodElem xs j hmem (gemZodElem_none_of_badRole j hbad)
    unfold gemBuildInput
    rw [if_neg (by rw [hmode]; decide), hjson]
    simp only [if_true]
    rw [hparse]
    simp only [gemZodMessages]
    rw [htrav]
  · intro raw xs hparse
    unfold ggChatJsonNormalize
    rw [hparse]

/-- Witness for C2 (amended) at the concrete bad-role input. -/
theorem c2_role_validation_amended_witness :
    dsBuildInput
      { inputType := "messages".data, prompt := [], system := [],
        messageAsJson := true, messagesJson := c2BadInput, messagesUi := [] } =
      .error dsInvalidShapeMsg ∧
    ggChatJsonNormalize c2BadInput = .ok ([c2BadElem].map ggMsgOfJson) :=
  ⟨(c2_role_validation_amended.1
      { inputType := "messages".data, prompt := [], system := [],
        messageAsJson := true, messagesJson := c2BadInput, messagesUi := [] }
      [c2BadElem] c2BadElem rfl rfl rfl (List.mem_singleton.mpr rfl) rfl).1,
   c2_role_validation_amended.2.2 c2BadInput [c2BadElem] rfl⟩

end S2P

namespace S2P

/-- Concrete item parameters with `options.maxTokens = 0`
(prompt mode, Generate Text). -/
def c1Params : DsItemParams :=
  { model := "deepseek-chat".data, operation := "generateText".data,
    options := { maxTokens := some 0, temperature := none, includeRequestBody := none },
    input := { inputType := "prompt".data, prompt := "hi".data, system := [],
               messageAsJson := false, messagesJson := [], messagesUi := [] },
    schemaName := [], schemaDescription := [], schemaRaw := [] }

/-- The `generateText` argument object that item issues. -/
def c1Call : GenTextCall :=
  { apiKey := "key".data, model := "deepseek-chat".data, messages := none,
    maxTokens := some 0, temperature := none,
    prompt := some "hi".data, system := some [] }

/-- C1 counterexample: the claim says a non-positive `options.maxTokens`
is rejected before any remote generation call is issued.  The DeepSeek
per-item pipeline performs no such runtime check: with
`options.maxTokens = 0` it issues the remote `generateText` call, whose
argument object carries `maxTokens = 0` (here the remote call itself is
made to fail, so the trace shows the call was issued before any
rejection could happen). -/
theorem c1_counterexample :
    (dsProcessItem "key".data (fun _ => .error "network failure".data)
        (fun _ => .error "network failure".data) (fun _ => true) c1Params).1 =
      [.text c1Call] ∧
    c1Call.maxTokens = some 0 := ⟨rfl, rfl⟩

/-- The "Max Tokens" entry of the DeepSeek `options` collection schema
(DeepSeek.node.ts, lines 483-492): a declarative form constraint, the
only place a `≥ 1` bound exists. -/
structure NumberPropSchema where
  name : List Char
  minValue : Option Int
  default : Int

def dsMaxTokensProp : NumberPropSchema :=
  { name := "maxTokens".data, minValue := some 1, default := 2048 }

/-- C1 (amended): the `maxTokens ≥ 1` constraint exists only as the
parameter schema's declarative `typeOptions.minValue` (enforced by the
platform's form UI); the execute pipeline performs no runtime check and
forwards `options.maxTokens` unchanged — whatever its value — into
every remote generation call it issues. -/
theorem c1_max_tokens_amended :
    dsMaxTokensProp.minValue = some 1 ∧
    (∀ (k : List Char) (gt : GenTextCall → Except (List Char) TextResult)
       (go : GenObjCall → Except (List Char) ObjResult) (ajv : Json → Bool)
       (p : DsItemParams) (c : GenTextCall),
        .text c ∈ (dsProcessItem k gt go ajv p).1 →
        c.maxTokens = p.options.maxTokens) ∧
    (∀ (k : List Char) (gt : GenTextCall → Except (List Char) TextResult)
       (go : GenObjCall → Except (List Char) ObjResult) (ajv : Json → Bool)
       (p : DsItemParams) (c : GenObjCall),
        .obj c ∈ (dsProcessItem k gt go ajv p).1 →
        c.maxTokens = p.options.maxTokens) := by
  refine ⟨rfl, ?_, ?_⟩
  · intro k gt go ajv p c hmem
    unfold dsProcessItem at hmem
    split at hmem
    · simp at hmem
    · split at hmem
      · simp at hmem
        rw [hmem]
      · split at hmem
        · split at hmem
          · simp at hmem
          · split at hmem
            · simp at hmem
            · simp at hmem
        · simp at hmem
  · intro k gt go ajv p c hmem
    unfold dsProcessItem at hmem
    split at hmem
    · simp at hmem
    · split at hmem
      · simp at hmem
      · split at hmem
        · split at hmem
          · simp at hmem
          · split at hmem
            · simp at hmem
              rw [hmem]
            · simp at hmem
        · simp at hmem

/-- Witness for C1 (amended): the maxTokens = 0 call of the
counterexample item is forwarded unchanged. -/
theorem c1_max_tokens_amended_witness :
    c1Call.maxTokens = c1Params.options.maxTokens :=
  c1_max_tokens_amended.2.1 "key".data
    (fun _ => .error "network failure".data)
    (fun _ => .error "network failure".data) (fun _ => true) c1Params c1Call
    (by rw [c1_counterexample.1]; exact List.mem_singleton.mpr rfl)

end S2P

namespace S2P

/-- A VercelAI item (complete mode, OpenAI provider, stream off). -/
def c3Item : VaItemParams :=
  { operation := "complete".data, provider := "openai".data,
    model := "gpt-3.5-turbo".data, prompt := "hi".data, messagesUi := [],
    options := { maxTokens := none, temperature := none, stream := none } }

/-- The `streamText` call that run issues — its bound API key is the
empty string. -/
def c3Call : VaCall :=
  { provider := "openai".data, apiKey := [], model := "gpt-3.5-turbo".data,
    messages := [⟨"user".data, "hi".data⟩], maxTokens := none, temperature := none }

/-- C3 counterexample: the claim says every node fails immediately with
a missing-credential error and issues no generation call when the
resolved credential's apiKey is empty.  The VercelAI node has no such
check: a run with an empty OpenAI apiKey constructs the provider,
issues the `streamText` call (whose bound key is empty), and completes
normally. -/
theorem c3_counterexample :
    vaExecute [] [] false (fun _ => .ok []) [c3Item] =
      ([c3Call], .ok [⟨some [], none, none⟩]) := rfl

/-- C3 (amended): the DeepSeek node (and likewise Groq and the Gemini
`generateText`/`generateObject` variants, whose credential guard is
identical) checks the credential before the item loop and fails with
its missing-credential error, issuing no remote call; the VercelAI node
(and the Google `complete`/`chat` variant) performs no check and issues
exactly one remote call per item regardless of the key value. -/
theorem c3_missing_credential_amended :
    (∀ (cof : Bool) (gt : GenTextCall → Except (List Char) TextResult)
       (go : GenObjCall → Except (List Char) ObjResult) (ajv : Json → Bool)
       (items : List DsItemParams),
        dsExecute none cof gt go ajv items = ([], .error ⟨dsNoKeyMsg, none⟩) ∧
        dsExecute (some []) cof gt go ajv items = ([], .error ⟨dsNoKeyMsg, none⟩)) ∧
    (∀ (oA oB : List Char)
       (oracle : VaCall → Except (List Char) (List (List Char)))
       (p : VaItemParams),
        p.operation = "complete".data ∨ p.operation = "chat".data →
        (vaProcessItem oA oB oracle p).1.length = 1) := by
  constructor
  · intro cof gt go ajv items
    exact ⟨rfl, rfl⟩
  · intro oA oB oracle p hop
    rcases hop with h | h
    · simp [vaProcessItem, h]
    · simp [vaProcessItem, h]

/-- Witness for C3 (amended): the DeepSeek run with an absent key
aborts callless, while the VercelAI item with an empty key issues its
one call. -/
theorem c3_missing_credential_amended_witness :
    dsExecute none false (fun _ => .error "e".data) (fun _ => .error "e".data)
        (fun _ => true) [] = ([], .error ⟨dsNoKeyMsg, none⟩) ∧
    (vaProcessItem [] [] (fun _ => .ok []) c3Item).1.length = 1 :=
  ⟨(c3_missing_credential_amended.1 false (fun _ => .error "e".data)
      (fun _ => .error "e".data) (fun _ => true) []).1,
   c3_missing_credential_amended.2 [] [] (fun _ => .ok []) c3Item (Or.inl rfl)⟩

end S2P

namespace S2P

theorem vaConsume_spec (stream : Bool) :
    ∀ (chunks : List (List Char)) (acc : List Char),
      vaConsume stream chunks acc =
        (acc ++ chunks.flatten,
         if stream then chunks.map (fun c => VaRec.mk (some c) (some false) none)
         else []) := by
  intro chunks
  induction chunks with
  | nil => intro acc; simp [vaConsume]
  | cons c cs ih =>
    intro acc
    cases stream <;> simp [vaConsume, ih, List.append_assoc]

/-- The records an item contributes to the output when the run
continues on failure: its normal records, or the single `{error}`
record. -/
def vaItemRecs (oA oB : List Char)
    (oracle : VaCall → Except (List Char) (List (List Char)))
    (p : VaItemParams) : List VaRec :=
  match (vaProcessItem oA oB oracle p).2 with
  | .ok rs => rs
  | .error e => [⟨none, none, some e⟩]

theorem vaLoop_join (oA oB : List Char)
    (oracle : VaCall → Except (List Char) (List (List Char))) :
    ∀ (items : List VaItemParams) (i : Nat),
      (vaLoop oA oB true oracle items i).2 =
        .ok ((items.map (vaItemRecs oA oB oracle)).flatten) := by
  intro items
  induction items with
  | nil => intro i; simp [vaLoop]
  | cons p ps ih =>
    intro i
    cases hstep : (vaProcessItem oA oB oracle p).2 with
    | ok recs => simp [vaLoop, hstep, vaItemRecs, ih, Except.map]
    | error e => simp [vaLoop, hstep, vaItemRecs, ih, Except.map]

/-- C6: for the streaming node (Vercel AI), an invocation whose stream
yields chunks `c1..cn` emits, with the stream option enabled, exactly
the `n` records `{text: ck, complete: false}` in chunk order followed
by the one record `{text: c1++...++cn, complete: true}`; with the
option disabled, exactly one record whose `text` is the concatenation
(and no `complete` field).  Moreover the run output is the in-order
concatenation of the per-item record blocks, so records of different
items never interleave. -/
theorem c6_streaming_records :
    (∀ (oA oB : List Char) (p : VaItemParams) (chunks : List (List Char)),
      p.operation = "complete".data ∨ p.operation = "chat".data →
      (vaProcessItem oA oB (fun _ => .ok chunks) p).2 =
        .ok (if p.options.stream = some true then
               chunks.map (fun c => VaRec.mk (some c) (some false) none) ++
                 [⟨some chunks.flatten, some true, none⟩]
             else [⟨some chunks.flatten, none, none⟩])) ∧
    (∀ (oA oB : List Char)
       (oracle : VaCall → Except (List Char) (List (List Char)))
       (items : List VaItemParams),
      (vaExecute oA oB true oracle items).2 =
        .ok ((items.map (vaItemRecs oA oB oracle)).flatten)) := by
  constructor
  · intro oA oB p chunks hop
    rcases hop with h | h
    · by_cases hst : p.options.stream = some true <;>
        simp [vaProcessItem, h, vaConsume_spec, hst]
    · have hne : p.operation ≠ "complete".data := by rw [h]; decide
      by_cases hst : p.options.stream = some true <;>
        simp [vaProcessItem, h, hne, vaConsume_spec, hst]
  · intro oA oB oracle items
    exact vaLoop_join oA oB oracle items 0

/-- Witness for C6 at a two-chunk stream with the stream option on. -/
theorem c6_streaming_records_witness :
    (vaProcessItem [] []
        (fun _ => .ok ["ab".data, "cd".data])
        { operation := "complete".data, provider := "openai".data,
          model := "gpt-4".data, prompt := "hi".data, messagesUi := [],
          options := { maxTokens := none, temperature := none, stream := some true } }).2 =
      .ok [⟨some "ab".data, some false, none⟩, ⟨some "cd".data, some false, none⟩,
           ⟨some "abcd".data, some true, none⟩] := by
  have h := c6_streaming_records.1 [] []
    { operation := "complete".data, provider := "openai".data,
      model := "gpt-4".data, prompt := "hi".data, messagesUi := [],
      options := { maxTokens := none, temperature := none, stream := some true } }
    ["ab".data, "cd".data] (Or.inl rfl)
  rw [h]
  rfl

end S2P

namespace S2P

/-- The MIME decision table as the claim states it (ordered cases):
selector `other` → the custom free text; any other selector value →
that value; result still the octet-stream default with a binary source
carrying a declared type → the declared type; otherwise the
octet-stream default (which is what the second case already produced). -/
def mimeSpec (selector custom : List Char) (isBinary : Bool)
    (declared : Option (List Char)) : List Char :=
  let r := if selector = "other".data then custom else selector
  if r = octetStream && isBinary && declared.getD [] ≠ [] then declared.getD []
  else r

/-- C7: the file-attachment MIME type follows the claim's decision
table — explicit selector, then `other` free text, then (for a binary
source) the binary property's declared type, then the octet-stream
default — provided a selector value is present and choosing `other`
comes with a non-empty custom type; and the named Google node's
overrides force the image classification on (`forceImageType`)
regardless of the declared MIME type, or force it off
(`forceFileType`) even for a declared `image/*` type. -/
theorem c7_mime_decision :
    (∀ (mimeType mimeTypeOther declared : Option (List Char)),
      mimeType.getD [] ≠ [] →
      (mimeType.getD [] = "other".data → mimeTypeOther.getD [] ≠ []) →
      gemSelectMime mimeType mimeTypeOther =
        mimeSpec (mimeType.getD []) (mimeTypeOther.getD []) false none ∧
      gemBinaryMime (gemSelectMime mimeType mimeTypeOther) declared =
        mimeSpec (mimeType.getD []) (mimeTypeOther.getD []) true declared) ∧
    (∀ (forceFileType : Bool) (declaredMime : List Char),
      ggIsImage true forceFileType declaredMime = true) ∧
    (∀ (declaredMime : List Char),
      ggIsImage false true declaredMime = false) := by
  refine ⟨?_, ?_, ?_⟩
  · intro mimeType mimeTypeOther declared hsel hoth
    have hstep : gemSelectMime mimeType mimeTypeOther =
        (if mimeType.getD [] = "other".data then mimeTypeOther.getD []
         else mimeType.getD []) := by
      unfold gemSelectMime
      rw [if_neg hsel]
      by_cases hother : mimeType.getD [] = "other".data
      · rw [if_pos hother]
        have := hoth hother
        simp [hother, this]
      · simp [hother]
    constructor
    · rw [hstep]
      unfold mimeSpec
      simp
    · rw [hstep]
      unfold mimeSpec gemBinaryMime
      by_cases hd : declared.getD [] = [] <;> simp [hd]
  · intro forceFileType declaredMime
    rfl
  · intro declaredMime
    rfl

/-- Witness for C7: selector `image/png` with a binary source carrying
a declared type resolves to `image/png`; the explicit selector wins. -/
theorem c7_mime_decision_witness :
    gemBinaryMime (gemSelectMime (some "image/png".data) none)
        (some "application/pdf".data) =
      mimeSpec "image/png".data [] true (some "application/pdf".data) ∧
    ggIsImage true false "application/pdf".data = true ∧
    ggIsImage false true "image/png".data = false :=
  ⟨(c7_mime_decision.1 (some "image/png".data) none (some "application/pdf".data)
      (by decide) (by intro h; exact absurd h (by decide))).2,
   c7_mime_decision.2.1 false "application/pdf".data,
   c7_mime_decision.2.2 "image/png".data⟩

end S2P

namespace S2P

/-- The regex-match characterization: when `p` is the prefix before the
first `<think>` and `m` the span up to the first `</think>` after it,
the extraction removes exactly that span (plus its trailing
whitespace) and returns the trimmed inner span as the reasoning. -/
theorem groqThinkExtract_spec (t : List Char) (r0 : Option (List Char))
    (p m q : List Char)
    (hdec : t = p ++ thinkOpen ++ m ++ thinkClose ++ q)
    (hmin1 : ∀ p' q', t = p' ++ thinkOpen ++ q' → p.length ≤ p'.length)
    (hmin2 : ∀ a b, m ++ thinkClose ++ q = a ++ thinkClose ++ b →
      m.length ≤ a.length) :
    groqThinkExtract t r0 = (jsTrim (p ++ q.dropWhile jsWs), some (jsTrim m)) := by
  have hdec' : t = p ++ thinkOpen ++ (m ++ thinkClose ++ q) := by
    rw [hdec]
    simp [List.append_assoc]
  have h1 : splitFirst thinkOpen t = some (p, m ++ thinkClose ++ q) :=
    splitFirst_eq_of_minimal thinkOpen t p (m ++ thinkClose ++ q) hdec' hmin1
  have h2 : splitFirst thinkClose (m ++ thinkClose ++ q) = some (m, q) :=
    splitFirst_eq_of_minimal thinkClose (m ++ thinkClose ++ q) m q rfl hmin2
  have hc : containsSub thinkOpen t = true := by
    unfold containsSub
    rw [h1]
    rfl
  unfold groqThinkExtract
  rw [hc]
  simp only [if_true]
  rw [h1]
  simp only [h2]

/-- When the text contains no `<think>...</think>` span, the extraction
leaves text and reasoning untouched. -/
theorem groqThinkExtract_noSpan (t : List Char) (r0 : Option (List Char))
    (hns : ∀ a b c, t ≠ a ++ thinkOpen ++ b ++ thinkClose ++ c) :
    groqThinkExtract t r0 = (t, r0) := by
  unfold groqThinkExtract
  cases hc : containsSub thinkOpen t with
  | false => simp
  | true =>
    simp only [if_true]
    unfold containsSub at hc
    obtain ⟨⟨pre, rest⟩, h1⟩ := Option.isSome_iff_exists.mp hc
    have hsound := splitFirst_sound thinkOpen t pre rest h1
    have h2 : splitFirst thinkClose rest = none := by
      rw [splitFirst_none_iff]
      intro x y hxy
      exact hns pre x y (by rw [hsound, hxy]; simp [List.append_assoc])
    rw [h1]
    simp only [h2]

end S2P

namespace S2P

/-- A concrete Groq SDK result whose text is
`"<think>plan</think>answer"` and whose own reasoning field is unset. -/
def c5Result : GroqTextResult :=
  { text := "<think>plan</think>answer".data, reasoning := none,
    finishReason := "stop".data,
    usagePromptTokens := none, usageCompletionTokens := none,
    usageTotalTokens := none, cacheHitTokens := none, cacheMissTokens := none,
    respId := none, respModelId := none, respTimestamp := none,
    respHeaders := none, warnings := none, requestBody := none }

/-- C5: for the Groq text-output normalizer — when the result text
contains a `<think>`/`</think>`-delimited span (`p` before the first
opening marker, `m` the span content up to the first closing marker
after it, `q` the remainder), the output's `reasoning` equals that
first delimited substring trimmed and its `text` equals the original
text with that first span and its trailing whitespace removed, trimmed;
the extraction applies at most once, to the first matching span.  When
no delimited span exists, `text` is unchanged and `reasoning` is
whatever the SDK result carried.  In particular
`"<think>plan</think>answer"` yields reasoning `"plan"` and text
`"answer"`. -/
theorem c5_reasoning_extraction :
    (∀ (r : GroqTextResult) (inc : Option Bool) (p m q : List Char),
      r.text = p ++ thinkOpen ++ m ++ thinkClose ++ q →
      (∀ p' q', r.text = p' ++ thinkOpen ++ q' → p.length ≤ p'.length) →
      (∀ a b, m ++ thinkClose ++ q = a ++ thinkClose ++ b → m.length ≤ a.length) →
      (groqFormatTextResult r inc).text = jsTrim (p ++ q.dropWhile jsWs) ∧
      (groqFormatTextResult r inc).reasoning = some (jsTrim m)) ∧
    (∀ (r : GroqTextResult) (inc : Option Bool),
      (∀ a b c, r.text ≠ a ++ thinkOpen ++ b ++ thinkClose ++ c) →
      (groqFormatTextResult r inc).text = r.text ∧
      (groqFormatTextResult r inc).reasoning = r.reasoning) ∧
    ((groqFormatTextResult c5Result none).text = "answer".data ∧
     (groqFormatTextResult c5Result none).reasoning = some "plan".data) := by
  refine ⟨?_, ?_, ⟨rfl, rfl⟩⟩
  · intro r inc p m q hdec hmin1 hmin2
    have h := groqThinkExtract_spec r.text r.reasoning p m q hdec hmin1 hmin2
    unfold groqFormatTextResult
    rw [h]
    exact ⟨rfl, rfl⟩
  · intro r inc hns
    have h := groqThinkExtract_noSpan r.text r.reasoning hns
    unfold groqFormatTextResult
    rw [h]
    exact ⟨rfl, rfl⟩

/-- Witness for C5: the general span case applied at the concrete input
`"<think>plan</think>answer"` (the first-occurrence minimality premises
are discharged via the `splitFirst` leftmost lemma at computed values). -/
theorem c5_reasoning_extraction_witness :
    (groqFormatTextResult c5Result none).text = jsTrim ([] ++ "answer".data.dropWhile jsWs) ∧
    (groqFormatTextResult c5Result none).reasoning = some (jsTrim "plan".data) :=
  c5_reasoning_extraction.1 c5Result none [] "plan".data "answer".data rfl
    (fun _ _ _ => Nat.zero_le _)
    (splitFirst_leftmost thinkClose "plan</think>answer".data "plan".data "answer".data rfl)

/-- C10: for a result text that contains `<think>` but no `</think>`
anywhere, the Groq normalizer performs no partial extraction: the
output text equals the raw SDK text and the reasoning equals the SDK
result's reasoning. -/
theorem c10_unclosed_think_unchanged :
    ∀ (r : GroqTextResult) (inc : Option Bool) (a b : List Char),
      r.text = a ++ thinkOpen ++ b →
      (∀ x y, r.text ≠ x ++ thinkClose ++ y) →
      (groqFormatTextResult r inc).text = r.text ∧
      (groqFormatTextResult r inc).reasoning = r.reasoning := by
  intro r inc a b hopen hnoclose
  have hns : ∀ x y z, r.text ≠ x ++ thinkOpen ++ y ++ thinkClose ++ z := by
    intro x y z hxy
    exact hnoclose (x ++ thinkOpen ++ y) z (by rw [hxy])
  have h := groqThinkExtract_noSpan r.text r.reasoning hns
  unfold groqFormatTextResult
  rw [h]
  exact ⟨rfl, rfl⟩

/-- A concrete Groq result with an unclosed `<think>`. -/
def c10Result : GroqTextResult :=
  { text := "<think>abc".data, reasoning := some "sdk".data,
    finishReason := "stop".data,
    usagePromptTokens := none, usageCompletionTokens := none,
    usageTotalTokens := none, cacheHitTokens := none, cacheMissTokens := none,
    respId := none, respModelId := none, respTimestamp := none,
    respHeaders := none, warnings := none, requestBody := none }

/-- Witness for C10 at the concrete unclosed input `"<think>abc"`. -/
theorem c10_unclosed_think_unchanged_witness :
    (groqFormatTextResult c10Result none).text = c10Result.text ∧
    (groqFormatTextResult c10Result none).reasoning = c10Result.reasoning :=
  c10_unclosed_think_unchanged c10Result none [] "abc".data rfl
    ((splitFirst_none_iff thinkClose "<think>abc".data).mp rfl)

end S2P

namespace S2P

/-- The outcome of one DeepSeek item's pipeline. -/
def dsItemOutcome (k : List Char)
    (gt : GenTextCall → Except (List Char) TextResult)
    (go : GenObjCall → Except (List Char) ObjResult)
    (ajv : Json → Bool) (p : DsItemParams) : Except (List Char) (Option DsRec) :=
  (dsProcessItem k gt go ajv p).2

/-- The records an item contributes under continue-on-fail. -/
def dsRecsOf : Except (List Char) (Option DsRec) → List DsRec
  | .error e => [.errorRec e]
  | .ok (some r) => [r]
  | .ok none => []

theorem dsLoop_cof_true (k : List Char)
    (gt : GenTextCall → Except (List Char) TextResult)
    (go : GenObjCall → Except (List Char) ObjResult) (ajv : Json → Bool) :
    ∀ (items : List DsItemParams) (i : Nat),
      (dsLoop k true gt go ajv items i).2 =
        .ok ((items.map (fun p => dsRecsOf (dsItemOutcome k gt go ajv p))).flatten) := by
  intro items
  induction items with
  | nil => intro i; simp [dsLoop]
  | cons p ps ih =>
    intro i
    cases hstep : (dsProcessItem k gt go ajv p).2 with
    | ok o =>
      cases o with
      | none => simp [dsLoop, hstep, dsRecsOf, dsItemOutcome, ih, Except.map]
      | some r => simp [dsLoop, hstep, dsRecsOf, dsItemOutcome, ih, Except.map]
    | error e => simp [dsLoop, hstep, dsRecsOf, dsItemOutcome, ih, Except.map]

theorem dsLoop_abort (k : List Char)
    (gt : GenTextCall → Except (List Char) TextResult)
    (go : GenObjCall → Except (List Char) ObjResult) (ajv : Json → Bool) :
    ∀ (items : List DsItemParams) (i j : Nat) (e : List Char) (hj : j < items.length),
      dsItemOutcome k gt go ajv (items.get ⟨j, hj⟩) = .error e →
      (∀ (l : Nat) (hl : l < j), ∀ e',
        dsItemOutcome k gt go ajv (items.get ⟨l, Nat.lt_trans hl hj⟩) ≠ .error e') →
      (dsLoop k false gt go ajv items i).2 = .error ⟨e, some (i + j)⟩ := by
  intro items
  induction items with
  | nil => intro i j e hj; simp at hj
  | cons p ps ih =>
    intro i j e hj herr hpred
    cases j with
    | zero =>
      have hp : (dsProcessItem k gt go ajv p).2 = .error e := herr
      simp [dsLoop, hp]
    | succ j' =>
      have hp : (dsProcessItem k gt go ajv p).2 ≠ .error e →
          True := fun _ => trivial
      have hnotp : ∀ e', (dsProcessItem k gt go ajv p).2 ≠ .error e' := by
        intro e'
        exact hpred 0 (Nat.succ_pos j') e'
      have hj' : j' < ps.length := Nat.lt_of_succ_lt_succ hj
      have hrec := ih (i + 1) j' e hj' herr (by
        intro l hl e'
        exact hpred (l + 1) (Nat.succ_lt_succ hl) e')
      cases hstep : (dsProcessItem k gt go ajv p).2 with
      | ok o =>
        cases o with
        | none => simp [dsLoop, hstep, hrec, Except.map, Nat.add_assoc, Nat.add_comm 1 j']
        | some r => simp [dsLoop, hstep, hrec, Except.map, Nat.add_assoc, Nat.add_comm 1 j']
      | error e' => exact absurd hstep (hnotp e')

/-- An item whose operation/model combination matches neither branch
(unreachable through the node's form schema) pushes no record;
conversely, a valid combination never yields the silent `none`. -/
theorem dsProcessItem_none_not_valid (k : List Char)
    (gt : GenTextCall → Except (List Char) TextResult)
    (go : GenObjCall → Except (List Char) ObjResult) (ajv : Json → Bool)
    (p : DsItemParams)
    (h : (dsProcessItem k gt go ajv p).2 = .ok none) :
    ¬(p.operation = "generateText".data ∨
      (p.operation = "generateObject".data ∧ p.model = "deepseek-chat".data)) := by
  unfold dsProcessItem at h
  split at h
  · simp at h
  · split at h
    · simp at h
      split at h <;> simp at h
    · split at h
      · split at h
        · simp at h
        · split at h
          · simp at h
            split at h <;> simp at h
          · simp at h
      · rename_i hop hcombo
        simp at hcombo
        intro hv
        rcases hv with h1 | ⟨h2, h3⟩
        · exact hop h1
        · exact absurd h3 (hcombo h2)

theorem flatten_map_singleton {β : Type} (f : DsItemParams → List β) :
    ∀ (l : List DsItemParams), (∀ a ∈ l, (f a).length = 1) →
      (l.map f).flatten.length = l.length ∧
      ∀ (i : Nat) (hi : i < l.length),
        ((l.map f).flatten)[i]? = (f (l.get ⟨i, hi⟩))[0]? := by
  intro l
  induction l with
  | nil => intro h; exact ⟨rfl, fun i hi => absurd hi (by simp)⟩
  | cons a as ih =>
    intro h
    have ha : (f a).length = 1 := h a (List.mem_cons_self a as)
    obtain ⟨b, hb⟩ : ∃ b, f a = [b] := by
      cases hfa : f a with
      | nil => rw [hfa] at ha; simp at ha
      | cons b bs =>
        cases bs with
        | nil => exact ⟨b, rfl⟩
        | cons b2 bs2 => rw [hfa] at ha; simp at ha
    have hrest := ih (fun x hx => h x (List.mem_cons_of_mem a hx))
    constructor
    · simp [hb, hrest.1]
    · intro i hi
      cases i with
      | zero => simp [hb]
      | succ i' =>
        have hi' : i' < as.length := Nat.lt_of_succ_lt_succ hi
        have := hrest.2 i' hi'
        simp [hb, this]

end S2P

namespace S2P

/-- C4: with continue-on-failure enabled, a run over `n` items produces
exactly `n` records in original input order — a failing item `i`
contributes the `{error: message}` record at position `i` and a
succeeding item its normal result record at its position; with
continue-on-failure disabled, the run aborts on the first failing item
with an error carrying that item's index.  (The operation/model
hypothesis excludes the `generateObject`/`deepseek-reasoner`
combination, which the form schema cannot produce: `operation` is
`noDataExpression` and that model only offers Generate Text.) -/
theorem c4_continue_on_fail_ordering :
    (∀ (k : List Char) (gt : GenTextCall → Except (List Char) TextResult)
       (go : GenObjCall → Except (List Char) ObjResult) (ajv : Json → Bool)
       (items : List DsItemParams),
      k ≠ [] →
      (∀ p ∈ items, p.operation = "generateText".data ∨
        (p.operation = "generateObject".data ∧ p.model = "deepseek-chat".data)) →
      ∃ recs, (dsExecute (some k) true gt go ajv items).2 = .ok recs ∧
        recs.length = items.length ∧
        ∀ (i : Nat) (hi : i < items.length),
          (∀ e, dsItemOutcome k gt go ajv (items.get ⟨i, hi⟩) = .error e →
            recs[i]? = some (.errorRec e)) ∧
          (∀ r, dsItemOutcome k gt go ajv (items.get ⟨i, hi⟩) = .ok (some r) →
            recs[i]? = some r)) ∧
    (∀ (k : List Char) (gt : GenTextCall → Except (List Char) TextResult)
       (go : GenObjCall → Except (List Char) ObjResult) (ajv : Json → Bool)
       (items : List DsItemParams) (j : Nat) (e : List Char) (hj : j < items.length),
      k ≠ [] →
      dsItemOutcome k gt go ajv (items.get ⟨j, hj⟩) = .error e →
      (∀ (l : Nat) (hl : l < j), ∀ e',
        dsItemOutcome k gt go ajv (items.get ⟨l, Nat.lt_trans hl hj⟩) ≠ .error e') →
      (dsExecute (some k) false gt go ajv items).2 = .error ⟨e, some j⟩) := by
  constructor
  · intro k gt go ajv items hk hv
    have hexec : (dsExecute (some k) true gt go ajv items).2 =
        (dsLoop k true gt go ajv items 0).2 := by
      simp [dsExecute, hk]
    have hall : ∀ p ∈ items,
        ((fun p => dsRecsOf (dsItemOutcome k gt go ajv p)) p).length = 1 := by
      intro p hp
      cases ho : dsItemOutcome k gt go ajv p with
      | error e => simp [dsRecsOf, ho]
      | ok o =>
        cases o with
        | some r => simp [dsRecsOf, ho]
        | none => exact absurd (hv p hp) (dsProcessItem_none_not_valid k gt go ajv p ho)
    obtain ⟨hlen, hidx⟩ :=
      flatten_map_singleton (fun p => dsRecsOf (dsItemOutcome k gt go ajv p)) items hall
    refine ⟨_, by rw [hexec]; exact dsLoop_cof_true k gt go ajv items 0, hlen, ?_⟩
    intro i hi
    constructor
    · intro e he
      rw [hidx i hi]
      rw [List.get_eq_getElem] at he
      simp [dsRecsOf, he]
    · intro r hr
      rw [hidx i hi]
      rw [List.get_eq_getElem] at hr
      simp [dsRecsOf, hr]
  · intro k gt go ajv items j e hj hk herr hpred
    have hexec : (dsExecute (some k) false gt go ajv items).2 =
        (dsLoop k false gt go ajv items 0).2 := by
      simp [dsExecute, hk]
    rw [hexec]
    have := dsLoop_abort k gt go ajv items 0 j e hj herr hpred
    simpa using this

/-- Concrete data for the C4 witness: three prompt-mode items of which
the middle one's remote call fails. -/
def c4Res : TextResult :=
  { text := "ok".data, finishReason := "stop".data,
    usagePromptTokens := none, usageCompletionTokens := none,
    usageTotalTokens := none, respId := none, respModelId := none,
    respTimestamp := none, respHeaders := none, warnings := none,
    requestBody := none }

def c4Gen : GenTextCall → Except (List Char) TextResult := fun c =>
  if c.prompt = some "bad".data then .error "boom".data else .ok c4Res

def c4GenObj : GenObjCall → Except (List Char) ObjResult :=
  fun _ => .error "unused".data

def c4Item (pr : List Char) : DsItemParams :=
  { model := "deepseek-chat".data, operation := "generateText".data,
    options := { maxTokens := none, temperature := none, includeRequestBody := none },
    input := { inputType := "prompt".data, prompt := pr, system := [],
               messageAsJson := false, messagesJson := [], messagesUi := [] },
    schemaName := [], schemaDescription := [], schemaRaw := [] }

def c4Items : List DsItemParams :=
  [c4Item "a".data, c4Item "bad".data, c4Item "b".data]

/-- Witness for C4: the non-continuing three-item run aborts with the
middle item's error and index 1; the continuing run's full output is
also computed — three records in order with the `{error}` record in
the middle. -/
theorem c4_continue_on_fail_ordering_witness :
    (dsExecute (some "key".data) false c4Gen c4GenObj (fun _ => true) c4Items).2 =
      .error ⟨"boom".data, some 1⟩ ∧
    (dsExecute (some "key".data) true c4Gen c4GenObj (fun _ => true) c4Items).2 =
      .ok [.textRec (dsFormatTextResult c4Res none), .errorRec "boom".data,
           .textRec (dsFormatTextResult c4Res none)] := by
  constructor
  · exact c4_continue_on_fail_ordering.2 "key".data c4Gen c4GenObj (fun _ => true)
      c4Items 1 "boom".data (by decide) (by decide) rfl
      (by
        intro l hl e' hcontra
        have hl0 : l = 0 := Nat.lt_one_iff.mp hl
        subst hl0
        exact absurd hcontra (by simp [dsItemOutcome, dsProcessItem, c4Items, c4Item,
          c4Gen, dsBuildInput]))
  · rfl

end S2P
